import Mathlib

/-!
Verification development for the Rem-E voice-server orchestration engine
(`voice_server.py` and `voice_api_server.py` plus `config.py`).

The Python code is shallowly embedded: pure helpers become Lean functions
over `List Char` (Python `str` is a sequence of Unicode code points, which
`List Char` matches), session state becomes explicit records threaded by
the modelled operations, and the external collaborators (speech engine,
LM Studio, the browser-side executor) appear as explicit oracle inputs.
-/

set_option maxRecDepth 20000

/-! ## Basic string machinery (Python str semantics) -/

/-- Lowercasing as Python `str.lower` acts on the alphabet this code base
uses: ASCII letters plus the Latin-1 range (accented Spanish letters
`Á É Í Ó Ú Ñ Ü` at 0xC0-0xDE, excluding the multiplication sign 0xD7). -/
def spanishLower (c : Char) : Char :=
  let n := c.toNat
  if 65 ≤ n ∧ n ≤ 90 then Char.ofNat (n + 32)
  else if 192 ≤ n ∧ n ≤ 222 ∧ n ≠ 215 then Char.ofNat (n + 32)
  else c

/-- Whitespace recognised by Python `str.strip` / `str.split` (ASCII part). -/
def pySpace (c : Char) : Bool :=
  c = ' ' || c = '\t' || c = '\n' || c = '\r' || c = '\x0b' || c = '\x0c'

/-- Python `str.strip()`. -/
def pyStrip (cs : List Char) : List Char :=
  ((cs.dropWhile pySpace).reverse.dropWhile pySpace).reverse

/-- Python `sub in s` prefix test helper. -/
def isPrefixL : List Char → List Char → Bool
  | [], _ => true
  | _ :: _, [] => false
  | p :: ps, c :: cs => p == c && isPrefixL ps cs

/-- Python substring containment `sub in s` (empty `sub` is contained in
everything, as in Python). -/
def isInfixL (pat : List Char) (s : List Char) : Bool :=
  if isPrefixL pat s then true
  else
    match s with
    | [] => false
    | _ :: rest => isInfixL pat rest

/-- Python `str.split()` (split on whitespace runs, dropping empties). -/
def splitWsAux : List Char → List Char → List (List Char)
  | [], [] => []
  | [], acc => [acc.reverse]
  | c :: cs, acc =>
    if pySpace c then
      match acc with
      | [] => splitWsAux cs []
      | _ :: _ => acc.reverse :: splitWsAux cs []
    else splitWsAux cs (c :: acc)

/-- Number of whitespace-separated words, Python `len(s.split())`. -/
def wordCountL (cs : List Char) : Nat := (splitWsAux cs []).length

/-- The normalisation `text.lower().strip()` applied by both classifiers. -/
def normText (text : String) : List Char := pyStrip (text.data.map spanishLower)

/-- First value produced by `f` along the list; models Python loops of the
shape `for x in xs: if cond(x): return val(x)`. -/
def firstSome (f : α → Option β) : List α → Option β
  | [] => none
  | a :: as =>
    match f a with
    | some b => some b
    | none => firstSome f as

/-! ## Configuration tables (`config.py`, `voice_api_server.py`) -/

/-- Table `NAVIGATION_SECTIONS` from `config.py`, in insertion order. -/
def navigationSections : List (String × String) :=
  [("inicio", "/"), ("home", "/"), ("principal", "/"),
   ("cocinar", "/cook"), ("cook", "/cook"),
   ("inventario", "/inventory"), ("despensa", "/inventory"), ("ingredientes", "/inventory"),
   ("recetas", "/recipes"),
   ("planificar", "/plan"), ("plan", "/plan"), ("planificador", "/plan"),
   ("aprender", "/learn"), ("aprendizaje", "/learn"),
   ("ajustes", "/settings"), ("configuración", "/settings"), ("configuracion", "/settings")]

/-- Table `NAVIGATION_VERBS` from `config.py`. -/
def navigationVerbs : List String :=
  ["ve a", "ir a", "abre", "abrir", "muestra", "mostrar",
   "llévame", "llevame", "navega", "navegar", "regresa",
   "regresar", "volver", "vuelve", "ve al", "ir al",
   "quiero ir", "quiero ver", "enséñame", "enseñame",
   "lleva a", "llévame a", "llevame a", "llévame al", "llevame al",
   "abre la", "abre el", "ve a la", "ve al", "ir al",
   "página de", "sección de", "pantalla de",
   "regresa a", "regresa al", "vuelve a", "vuelve al"]

/-- Question indicators of `voice_server.classify_intent`. -/
def questionIndicatorsWS : List String :=
  ["qué", "que", "cuánto", "cuanto", "cuánta", "cuanta",
   "cuántos", "cuantos", "cuántas", "cuantas",
   "cómo", "como", "dónde", "donde", "por qué", "porque",
   "tengo", "hay", "puedo", "necesito", "falta", "busca",
   "buscar", "encuentra", "encontrar", "dame", "dime"]

/-- Question indicators of `voice_api_server.classify_intent` (the WS list
plus `cuál`, `cual`, `sería`, `seria`). -/
def questionIndicatorsAPI : List String :=
  ["qué", "que", "cuánto", "cuanto", "cuánta", "cuanta",
   "cuántos", "cuantos", "cuántas", "cuantas",
   "cómo", "como", "dónde", "donde", "por qué", "porque",
   "tengo", "hay", "puedo", "necesito", "falta", "busca",
   "buscar", "encuentra", "encontrar", "dame", "dime",
   "cuál", "cual", "sería", "seria"]

/-- Table `cooking_commands` of `voice_api_server.classify_intent`, in insertion
order (kind, patterns). -/
def cookingCommands : List (String × List String) :=
  [("siguiente", ["siguiente", "siguiente paso", "continua", "continúa", "avanza"]),
   ("anterior", ["anterior", "paso anterior", "vuelve", "regresa", "atrás"]),
   ("repetir", ["repite", "repetir", "otra vez", "de nuevo", "lee de nuevo"]),
   ("pausar", ["pausa", "pausar", "detén", "detener", "espera"]),
   ("reanudar", ["reanuda", "reanudar", "continua", "continúa"]),
   ("timer", ["timer", "temporizador", "cronómetro", "avísame en", "alerta en"])]

/-- Inner question words checked inside the cooking-command loop of the
API classifier. -/
def innerQuestionWords : List String := ["qué", "que", "cuál", "cual", "cómo", "como"]

/-- Inner action verbs checked inside the cooking-command loop of the
API classifier. -/
def innerActionVerbs : List String := ["ve", "pasa", "avanza", "lee", "di", "dime"]

/-! ## Intent classifiers -/

def hasNavVerbB (lt : List Char) : Bool :=
  navigationVerbs.any (fun v => isInfixL v.data lt)

def isQuestionWSB (lt : List Char) : Bool :=
  questionIndicatorsWS.any (fun q => isInfixL q.data lt)

def isQuestionAPIB (lt : List Char) : Bool :=
  questionIndicatorsAPI.any (fun q => isInfixL q.data lt)

/-- The navigation-or-question tail shared verbatim by both classifiers,
parameterised by the (variant-specific) question-indicator result.
The Python loop over `NAVIGATION_SECTIONS` continues when a section name
occurs but neither condition holds; since both conditions are independent
of the loop variable, taking the first occurring section name and testing
the conditions once is equivalent. -/
def navOrQuestion (lt : List Char) (qInd : Bool) : String × Option String :=
  if qInd && !hasNavVerbB lt then ("question", none)
  else
    match firstSome (fun p => if isInfixL p.1.data lt then some p.2 else none) navigationSections with
    | some route =>
      if hasNavVerbB lt || wordCountL lt ≤ 4 then ("navigation", some route)
      else ("question", none)
    | none => ("question", none)

/-- Core of `voice_server.classify_intent` on the normalised text. -/
def classifyWSCore (lt : List Char) : String × Option String :=
  navOrQuestion lt (isQuestionWSB lt)

/-- Function `classify_intent` of `voice_server.py`. -/
def classifyIntentWS (text : String) : String × Option String :=
  classifyWSCore (normText text)

/-- Kind of the first cooking-command pattern (in table order) occurring in
the text; models the nested `for command_type / for pattern` loops of
`voice_api_server.classify_intent`. -/
def firstCookingKind (lt : List Char) : Option String :=
  firstSome (fun p => if p.2.any (fun pat => isInfixL pat.data lt) then some p.1 else none)
    cookingCommands

def hasInnerQuestionWord (lt : List Char) : Bool :=
  innerQuestionWords.any (fun q => isInfixL q.data lt)

def hasInnerActionVerb (lt : List Char) : Bool :=
  innerActionVerbs.any (fun v => isInfixL v.data lt)

/-- Core of `voice_api_server.classify_intent` on the normalised text.
Inside the Python cooking loop the three tests (word count, inner question
words, inner action verbs) do not depend on the loop variable, so the loop
either returns at the first matching pattern or falls through entirely;
`firstCookingKind` plus one three-way test is equivalent. -/
def classifyAPICore (lt : List Char) : String × Option String :=
  match firstCookingKind lt with
  | some k =>
    if wordCountL lt ≤ 3 then ("cooking_command", some k)
    else if hasInnerQuestionWord lt then ("question", none)
    else if hasInnerActionVerb lt then ("cooking_command", some k)
    else navOrQuestion lt (isQuestionAPIB lt)
  | none => navOrQuestion lt (isQuestionAPIB lt)

/-- Function `classify_intent` of `voice_api_server.py`. -/
def classifyIntentAPI (text : String) : String × Option String :=
  classifyAPICore (normText text)

/-! ## JSON model (the subset of `json.loads` this code exercises)

Values are kept close to Python: objects keep their members in parse order
(Python dedups with last-wins, which coincides for `key in dict` tests),
numbers keep their lexeme (the code never looks at numeric values of
decoded JSON). -/

inductive JVal where
  | null
  | bool (b : Bool)
  | num (lexeme : String)
  | str (s : String)
  | arr (items : List JVal)
  | obj (members : List (String × JVal))

/-- JSON inter-token whitespace, as in Python `json` (space, tab, LF, CR). -/
def jsonWs (c : Char) : Bool := c = ' ' || c = '\t' || c = '\n' || c = '\r'

def skipJsonWs (cs : List Char) : List Char := cs.dropWhile jsonWs

def hexVal (c : Char) : Option Nat :=
  if '0' ≤ c ∧ c ≤ '9' then some (c.toNat - 48)
  else if 'a' ≤ c ∧ c ≤ 'f' then some (c.toNat - 87)
  else if 'A' ≤ c ∧ c ≤ 'F' then some (c.toNat - 55)
  else none

/-- One escape sequence after a backslash inside a JSON string. -/
def jsonEscape : List Char → Option (Char × List Char)
  | [] => none
  | e :: cs =>
    if e = '"' then some ('"', cs)
    else if e = '\\' then some ('\\', cs)
    else if e = '/' then some ('/', cs)
    else if e = 'b' then some ('\x08', cs)
    else if e = 'f' then some ('\x0c', cs)
    else if e = 'n' then some ('\n', cs)
    else if e = 'r' then some ('\r', cs)
    else if e = 't' then some ('\t', cs)
    else if e = 'u' then
      match cs with
      | h1 :: h2 :: h3 :: h4 :: cs3 =>
        match hexVal h1, hexVal h2, hexVal h3, hexVal h4 with
        | some a, some b, some c, some d => some (Char.ofNat (((a * 16 + b) * 16 + c) * 16 + d), cs3)
        | _, _, _, _ => none
      | _ => none
    else none

/-- Body of a JSON string after the opening quote; strict mode (control
characters below 0x20 must be escaped), as in Python `json.loads`. -/
def parseStringBody : Nat → List Char → Option (List Char × List Char)
  | 0, _ => none
  | _, [] => none
  | fuel + 1, c :: cs =>
    if c = '"' then some ([], cs)
    else if c = '\\' then
      match jsonEscape cs with
      | some (ch, rest) =>
        match parseStringBody fuel rest with
        | some (s, r) => some (ch :: s, r)
        | none => none
      | none => none
    else if c.toNat < 32 then none
    else
      match parseStringBody fuel cs with
      | some (s, r) => some (c :: s, r)
      | none => none

/-- Nonempty digit run. -/
def digits1 (cs : List Char) : Option (List Char × List Char) :=
  let d := cs.takeWhile Char.isDigit
  if d.isEmpty then none else some (d, cs.dropWhile Char.isDigit)

/-- Optional fraction and exponent after the integer part; a malformed
fraction or exponent is simply not consumed (as with the Python number
regex, the number ends at the integer part and the remaining characters
fail later as trailing garbage). -/
def jsonNumTail (lex : List Char) (cs : List Char) : List Char × List Char :=
  let (lex1, cs1) :=
    match cs with
    | '.' :: rest =>
      match digits1 rest with
      | some (d, r) => (lex ++ '.' :: d, r)
      | none => (lex, cs)
    | _ => (lex, cs)
  match cs1 with
  | e :: rest =>
    if e = 'e' ∨ e = 'E' then
      match rest with
      | s :: rest2 =>
        if s = '+' ∨ s = '-' then
          match digits1 rest2 with
          | some (d, r) => (lex1 ++ e :: s :: d, r)
          | none => (lex1, cs1)
        else
          match digits1 rest with
          | some (d, r) => (lex1 ++ e :: d, r)
          | none => (lex1, cs1)
      | [] => (lex1, cs1)
    else (lex1, cs1)
  | [] => (lex1, cs1)

/-- JSON number: `-?(0|[1-9][0-9]*)(\.[0-9]+)?([eE][+-]?[0-9]+)?`, kept as a
lexeme; also the Python-accepted constants `Infinity` / `-Infinity` / `NaN`
are handled by the caller. -/
def parseJsonNumber (cs : List Char) : Option (List Char × List Char) :=
  let (sign, cs1) :=
    match cs with
    | '-' :: rest => (['-'], rest)
    | _ => (([] : List Char), cs)
  match cs1 with
  | [] => none
  | c :: rest =>
    if c = '0' then
      let (lex, r) := jsonNumTail (sign ++ ['0']) rest
      some (lex, r)
    else if c.isDigit then
      let d := (c :: rest).takeWhile Char.isDigit
      let (lex, r) := jsonNumTail (sign ++ d) ((c :: rest).dropWhile Char.isDigit)
      some (lex, r)
    else none

def litTailAfter : List Char → List Char → Option (List Char)
  | [], cs => some cs
  | p :: ps, c :: cs => if c = p then litTailAfter ps cs else none
  | _ :: _, [] => none

mutual

/-- One JSON value (leading whitespace allowed), fuel-indexed. -/
def parseJsonVal : Nat → List Char → Option (JVal × List Char)
  | 0, _ => none
  | fuel + 1, cs0 =>
    match skipJsonWs cs0 with
    | [] => none
    | c :: rest =>
      if c = '"' then
        match parseStringBody (rest.length + 1) rest with
        | some (s, r) => some (.str (String.mk s), r)
        | none => none
      else if c = Char.ofNat 123 then
        match skipJsonWs rest with
        | d :: rest2 =>
          if d = Char.ofNat 125 then some (.obj [], rest2)
          else
            match parseJsonMembers fuel rest with
            | some (kvs, r) => some (.obj kvs, r)
            | none => none
        | [] => none
      else if c = '[' then
        match skipJsonWs rest with
        | d :: rest2 =>
          if d = ']' then some (.arr [], rest2)
          else
            match parseJsonItems fuel rest with
            | some (xs, r) => some (.arr xs, r)
            | none => none
        | [] => none
      else if c = 't' then
        match litTailAfter ['r', 'u', 'e'] rest with
        | some r => some (.bool true, r)
        | none => none
      else if c = 'f' then
        match litTailAfter ['a', 'l', 's', 'e'] rest with
        | some r => some (.bool false, r)
        | none => none
      else if c = 'n' then
        match litTailAfter ['u', 'l', 'l'] rest with
        | some r => some (.null, r)
        | none => none
      else if c = 'N' then
        match litTailAfter ['a', 'N'] rest with
        | some r => some (.num "NaN", r)
        | none => none
      else if c = 'I' then
        match litTailAfter ['n', 'f', 'i', 'n', 'i', 't', 'y'] rest with
        | some r => some (.num "Infinity", r)
        | none => none
      else if c = '-' then
        match litTailAfter ['I', 'n', 'f', 'i', 'n', 'i', 't', 'y'] rest with
        | some r => some (.num "-Infinity", r)
        | none =>
          match parseJsonNumber (c :: rest) with
          | some (lex, r) => some (.num (String.mk lex), r)
          | none => none
      else
        match parseJsonNumber (c :: rest) with
        | some (lex, r) => some (.num (String.mk lex), r)
        | none => none

/-- Object members, entered after the opening brace of a non-empty object. -/
def parseJsonMembers : Nat → List Char → Option (List (String × JVal) × List Char)
  | 0, _ => none
  | fuel + 1, cs0 =>
    match skipJsonWs cs0 with
    | c :: rest =>
      if c = '"' then
        match parseStringBody (rest.length + 1) rest with
        | some (k, r1) =>
          match skipJsonWs r1 with
          | ':' :: r3 =>
            match parseJsonVal fuel r3 with
            | some (v, r4) =>
              match skipJsonWs r4 with
              | ',' :: r6 =>
                match parseJsonMembers fuel r6 with
                | some (kvs, r7) => some ((String.mk k, v) :: kvs, r7)
                | none => none
              | c2 :: r6 =>
                if c2 = Char.ofNat 125 then some ([(String.mk k, v)], r6) else none
              | [] => none
            | none => none
          | _ => none
        | none => none
      else none
    | [] => none

/-- Array items, entered after the opening bracket of a non-empty array. -/
def parseJsonItems : Nat → List Char → Option (List JVal × List Char)
  | 0, _ => none
  | fuel + 1, cs0 =>
    match parseJsonVal fuel cs0 with
    | some (v, r1) =>
      match skipJsonWs r1 with
      | ',' :: r2 =>
        match parseJsonItems fuel r2 with
        | some (xs, r3) => some (v :: xs, r3)
        | none => none
      | c :: r2 => if c = ']' then some ([v], r2) else none
      | [] => none
    | none => none

end

/-- Python `json.loads` on a character list: one value, then only trailing
whitespace. -/
def jsonLoadsL (cs : List Char) : Option JVal :=
  match parseJsonVal (cs.length + 1) cs with
  | some (v, rest) => if (skipJsonWs rest).isEmpty then some v else none
  | none => none

/-! ## The action-response parser (`LLMClient._parse_json_response`)

The embedded-JSON pattern is the regex
`\x7b[^\x7b\x7d]*(?:\x7b[^\x7b\x7d]*\x7d[^\x7b\x7d]*)*\x7d`
(an opening brace, a run of non-brace characters, any number of
one-level-nested brace groups each followed by a non-brace run, and a
closing brace). Because every bracketed token of the pattern requires a
brace character and the runs are maximal, the regex backtracking collapses
to the deterministic scan below; `re.findall` tries each start position
left to right and resumes after the end of each match. -/

def notBrace (c : Char) : Bool := c ≠ Char.ofNat 123 && c ≠ Char.ofNat 125

/-- Split off the maximal non-brace run. -/
def spanNB (cs : List Char) : List Char × List Char :=
  (cs.takeWhile notBrace, cs.dropWhile notBrace)

/-- After the opening brace and the first non-brace run: consume
`(?:\x7b[^\x7b\x7d]*\x7d[^\x7b\x7d]*)*\x7d`, returning the consumed
characters and the rest. -/
def braceGroupLoop : Nat → List Char → Option (List Char × List Char)
  | 0, _ => none
  | _, [] => none
  | fuel + 1, c :: cs =>
    if c = Char.ofNat 125 then some ([Char.ofNat 125], cs)
    else if c = Char.ofNat 123 then
      let (b, r2) := spanNB cs
      match r2 with
      | d :: r3 =>
        if d = Char.ofNat 125 then
          let (cpart, r4) := spanNB r3
          match braceGroupLoop fuel r4 with
          | some (tail, rest) =>
            some (Char.ofNat 123 :: (b ++ Char.ofNat 125 :: (cpart ++ tail)), rest)
          | none => none
        else none
      | [] => none
    else none

/-- All matches of the embedded-JSON pattern, in order of appearance
(`re.findall` semantics: non-overlapping, leftmost first). -/
def scanMatchesF : Nat → List Char → List (List Char)
  | 0, _ => []
  | _, [] => []
  | fuel + 1, c :: cs =>
    if c = Char.ofNat 123 then
      let (a, r1) := spanNB cs
      match braceGroupLoop (cs.length + 1) r1 with
      | some (tail, rest) => (Char.ofNat 123 :: (a ++ tail)) :: scanMatchesF fuel rest
      | none => scanMatchesF fuel cs
    else scanMatchesF fuel cs

def scanMatches (cs : List Char) : List (List Char) :=
  scanMatchesF (cs.length + 1) cs

/-- Does the decoded value carry both an `action` and a `params` member? -/
def hasActionParams : JVal → Bool
  | .obj kvs => kvs.any (fun p => p.1 == "action") && kvs.any (fun p => p.1 == "params")
  | _ => false

/-- Decode one candidate: `json.loads` then the two-field check; any
failure yields `none` (a non-fatal decode error in the Python code). -/
def decodeCandidate (cs : List Char) : Option JVal :=
  match jsonLoadsL cs with
  | some v => if hasActionParams v then some v else none
  | none => none

def startsWithBrace : List Char → Bool
  | [] => false
  | c :: _ => c = Char.ofNat 123

def endsWithBrace (cs : List Char) : Bool :=
  match cs.getLast? with
  | some c => c = Char.ofNat 125
  | none => false

/-- The pure-JSON fast path: `text.startswith` and `endswith` braces, then
decode-and-check. On any failure the Python code falls through to the
scan. -/
def directDecode (cs : List Char) : Option JVal :=
  if startsWithBrace cs && endsWithBrace cs then decodeCandidate cs else none

/-- Method `LLMClient._parse_json_response`. -/
def parseJsonResponse (text : String) : Option JVal :=
  let t := pyStrip text.data
  match directDecode t with
  | some v => some v
  | none => firstSome decodeCandidate (scanMatches t)

/-! ## Session state (`LLMClient.kitchen_context`, conversation history) -/

structure Ingredient where
  id : String
  name : String
deriving DecidableEq, Repr

/-- Record `LLMClient.kitchen_context`. Known keys become fields; `extra` holds
any further keys a context update may merge in (the Python object is one
flat dict). -/
structure KitchenContext where
  inventory : List String
  recipes : List String
  current_page : String
  pending_ingredient : Option Ingredient
  pending_quantity : Nat
  pending_unit : String
  pending_location : Option String
  extra : List (String × String)
deriving DecidableEq, Repr

/-- The dict built in `LLMClient.__init__`. -/
def initialKitchenContext : KitchenContext :=
  { inventory := [], recipes := [], current_page := "/",
    pending_ingredient := none, pending_quantity := 1,
    pending_unit := "piezas", pending_location := none, extra := [] }

structure Message where
  role : String
  content : String
deriving DecidableEq, Repr

/-- Conversation history plus kitchen context of one `LLMClient`. -/
structure LLMState where
  history : List Message
  ctx : KitchenContext
deriving DecidableEq, Repr

/-- Python truthiness of an optional string (`None` and `""` are falsy). -/
def truthyOptStr : Option String → Bool
  | none => false
  | some s => !s.isEmpty

/-! ## Slot extraction (`_extract_quantity`, `_extract_location`) -/

/-- Table `number_words` of `_extract_quantity`, in insertion order — the order
in which the Python loop checks them (NOT the order of appearance in the
utterance). -/
def numberWords : List (String × Nat) :=
  [("un", 1), ("uno", 1), ("una", 1),
   ("dos", 2), ("tres", 3), ("cuatro", 4), ("cinco", 5),
   ("seis", 6), ("siete", 7), ("ocho", 8), ("nueve", 9), ("diez", 10)]

def digitsToNat (ds : List Char) : Nat :=
  ds.foldl (fun n c => n * 10 + (c.toNat - 48)) 0

/-- First digit run of the text, the leftmost maximal one, as selected by
the regex findall for digit runs in `_extract_quantity`. -/
def firstDigitRun : List Char → Option Nat
  | [] => none
  | c :: cs =>
    if c.isDigit then some (digitsToNat (c :: cs.takeWhile Char.isDigit))
    else firstDigitRun cs

/-- Method `LLMClient._extract_quantity`: first `number_words` entry (in table
order) occurring as a substring of the lowered text, else the first digit
run of the original text, else 1. -/
def extractQuantity (text : String) : Nat :=
  let lt := text.data.map spanishLower
  match firstSome (fun p => if isInfixL p.1.data lt then some p.2 else none) numberWords with
  | some n => n
  | none =>
    match firstDigitRun text.data with
    | some n => n
    | none => 1

/-- Table `location_map` of `_extract_location`, in insertion order. -/
def locationMap : List (String × String) :=
  [("refrigerador", "Refrigerador"), ("refri", "Refrigerador"), ("nevera", "Refrigerador"),
   ("congelador", "Congelador"), ("freezer", "Congelador"),
   ("alacena", "Alacena"), ("despensa", "Alacena"), ("pantry", "Alacena")]

/-- Method `LLMClient._extract_location`: first synonym (in table order) occurring
in the lowered text, mapped to the canonical DB name. -/
def extractLocation (text : String) : Option String :=
  let lt := text.data.map spanishLower
  firstSome (fun p => if isInfixL p.1.data lt then some p.2 else none) locationMap

/-- The slot-update preamble of `LLMClient.get_response`: store a detected
location unconditionally, store a detected quantity only when it exceeds
the default 1. -/
def applyLocation (ctx : KitchenContext) : Option String → KitchenContext
  | some l => { ctx with pending_location := some l }
  | none => ctx

def applyQuantity (ctx : KitchenContext) (q : Nat) : KitchenContext :=
  if q > 1 then { ctx with pending_quantity := q } else ctx

def getResponseSlotPhase (ctx : KitchenContext) (text : String) : KitchenContext :=
  applyQuantity (applyLocation ctx (extractLocation text)) (extractQuantity text)

/-! ## `LLMClient._handle_action`

The remote executor and the second LM Studio call are external
collaborators; their replies enter as an explicit oracle. The
`result_summary` / prompt construction feeding the second model call is
omitted (it only produces input for the excluded LLM); the reply text the
model returns is `finalText`. -/

/-- Outcome of the `searchIngredients` broker call: `success` flag, the
decoded `data` list and an optional `error` message. -/
structure SearchResult where
  success : Bool
  data : List Ingredient
  error : Option String
deriving DecidableEq, Repr

/-- Outcome of an `addToInventory` broker call. -/
structure AddResult where
  success : Bool
  error : Option String
deriving DecidableEq, Repr

/-- Outcome of any other broker call (only the parts `_handle_action`
inspects). -/
structure GenericResult where
  success : Bool
  error : Option String
deriving DecidableEq, Repr

/-- Replies of the external collaborators during one `_handle_action` run:
the broker results and the second model call (`none` models a raised
exception, caught by the surrounding `try`). -/
structure BrokerOracle where
  searchResult : SearchResult
  addResult : AddResult
  genericResult : GenericResult
  finalText : Option String
deriving DecidableEq, Repr

/-- The parsed directive fields `_handle_action` reads (`user_message` and
`needs_info` are extracted by the Python code but never used). -/
structure ActionData where
  action : String
  queryParam : Option String
deriving DecidableEq, Repr

/-- Clear the four pending slots and emit the confirmation message, as both
success branches of `_handle_action` do. -/
def finishAdd (hist : List Message) (ctx : KitchenContext) (quantity : Nat)
    (nm loc : String) : LLMState × String × Option String :=
  let ctx2 := { ctx with
                pending_ingredient := none
                pending_location := none
                pending_quantity := 1
                pending_unit := "piezas" }
  let confirmation :=
    "Listo, " ++ toString quantity ++ " " ++ nm ++ " en " ++ String.mk (loc.data.map spanishLower)
  ({ history := hist ++ [⟨"assistant", confirmation⟩], ctx := ctx2 }, confirmation, none)

/-- Ask for the missing location (seeded context already holds the found
ingredient). -/
def askWhere (st : LLMState) : LLMState × String × Option String :=
  ({ st with history := st.history ++ [⟨"assistant", "¿Dónde?"⟩] }, "¿Dónde?", none)

/-- The fall-through branch for every other action (`getInventory`,
`searchRecipes`, ... — including a directive that names `addToInventory`
directly): run the function, on success ask the model to phrase the final
answer, on failure report a `function_error`. No pending slot is touched
here. -/
def genericBranch (st : LLMState) (a : ActionData) (orc : BrokerOracle) :
    LLMState × String × Option String :=
  if orc.genericResult.success then
    match orc.finalText with
    | some t => ({ st with history := st.history ++ [⟨"assistant", t⟩] }, t, none)
    | none => (st, "Error ejecutando " ++ a.action, some "function_error")
  else
    (st, "Error: " ++ orc.genericResult.error.getD "Error desconocido", some "function_error")

/-- The `searchIngredients` branch: on a successful non-empty search, seed
`pending_ingredient` with the first hit; then, if a location is already
pending, immediately issue the composite `addToInventory`; otherwise ask
for the location. (The Python inner `else` for an empty hit list is
unreachable because the outer guard already requires truthy data.) -/
def handleSearch (st : LLMState) (orc : BrokerOracle) : LLMState × String × Option String :=
  match orc.searchResult.data, orc.searchResult.success with
  | first :: _, true =>
    let ctx1 := { st.ctx with pending_ingredient := some first }
    let quantity := ctx1.pending_quantity
    match ctx1.pending_location with
    | some loc =>
      if loc.isEmpty then askWhere { st with ctx := ctx1 }
      else if orc.addResult.success then
        finishAdd st.history ctx1 quantity first.name loc
      else
        ({ st with ctx := ctx1 },
         "Error al agregar: " ++ orc.addResult.error.getD "Error desconocido",
         some "function_error")
    | none => askWhere { st with ctx := ctx1 }
  | _, _ =>
    (st, orc.searchResult.error.getD "Error buscando ingrediente", some "function_error")

/-- The pending-item-plus-location branch: issue the composite
`addToInventory` from the stored slots. -/
def handlePendingAdd (st : LLMState) (ing : Ingredient) (loc : String) (orc : BrokerOracle) :
    LLMState × String × Option String :=
  if orc.addResult.success then
    finishAdd st.history st.ctx st.ctx.pending_quantity ing.name loc
  else
    (st, "Error al agregar: " ++ orc.addResult.error.getD "Error desconocido",
     some "function_error")

/-- Method `LLMClient._handle_action` (returns new client state, reply text and
optional error type). -/
def handleAction (st : LLMState) (a : ActionData) (orc : BrokerOracle) :
    LLMState × String × Option String :=
  if a.action = "searchIngredients" then handleSearch st orc
  else
    match st.ctx.pending_ingredient, st.ctx.pending_location with
    | some ing, some loc =>
      if loc.isEmpty then genericBranch st a orc
      else handlePendingAdd st ing loc orc
    | some _, none => genericBranch st a orc
    | none, _ => genericBranch st a orc

/-- Kitchen context after one `_handle_action` run. -/
def postActionCtx (st : LLMState) (a : ActionData) (orc : BrokerOracle) : KitchenContext :=
  (handleAction st a orc).1.ctx

/-- Does this `_handle_action` run issue the composite `addToInventory`
broker call on one of the two dedicated paths? (Search path: successful
non-empty lookup with a truthy pending location; pending path: truthy
pending ingredient and location with any other action name.) -/
def issuesCompositeAdd (st : LLMState) (a : ActionData) (orc : BrokerOracle) : Bool :=
  if a.action = "searchIngredients" then
    orc.searchResult.success && !orc.searchResult.data.isEmpty
      && truthyOptStr st.ctx.pending_location
  else
    st.ctx.pending_ingredient.isSome && truthyOptStr st.ctx.pending_location

/-! ## Context updates (`LLMClient.update_context`)

`update_context` is `self.kitchen_context.update(context)`: a shallow merge
of every caller-supplied key into the one dict that also holds the pending
slots. An update entry addresses either one of the known keys or any other
key. -/

inductive CtxEntry where
  | inventory (v : List String)
  | recipes (v : List String)
  | currentPage (v : String)
  | pendingIngredient (v : Option Ingredient)
  | pendingQuantity (v : Nat)
  | pendingUnit (v : String)
  | pendingLocation (v : Option String)
  | other (k : String) (v : String)
deriving DecidableEq, Repr

def setAssoc : List (String × String) → String → String → List (String × String)
  | [], k, v => [(k, v)]
  | (k0, v0) :: rest, k, v =>
    if k0 = k then (k0, v) :: rest else (k0, v0) :: setAssoc rest k v

def applyCtxEntry (ctx : KitchenContext) : CtxEntry → KitchenContext
  | .inventory v => { ctx with inventory := v }
  | .recipes v => { ctx with recipes := v }
  | .currentPage v => { ctx with current_page := v }
  | .pendingIngredient v => { ctx with pending_ingredient := v }
  | .pendingQuantity v => { ctx with pending_quantity := v }
  | .pendingUnit v => { ctx with pending_unit := v }
  | .pendingLocation v => { ctx with pending_location := v }
  | .other k v => { ctx with extra := setAssoc ctx.extra k v }

/-- Method `LLMClient.update_context` (also reached from the `/api/context`
endpoint and the `update_context` WebSocket message). -/
def updateContext (ctx : KitchenContext) (entries : List CtxEntry) : KitchenContext :=
  entries.foldl applyCtxEntry ctx

/-! ## The pending-call registry and the remote function broker
(`pending_function_responses`, `_execute_function_on_client`,
`handle_client`) -/

/-- State of one `asyncio.Future` in the registry. -/
inductive FutState where
  | pending
  | done (result : JVal)

/-- Registry `pending_function_responses`, a dict keyed by the generated
`request_id`. -/
abbrev CallRegistry := List (String × FutState)

def regLookup : CallRegistry → String → Option FutState
  | [], _ => none
  | (k, v) :: rest, rid => if k = rid then some v else regLookup rest rid

def regSet : CallRegistry → String → FutState → CallRegistry
  | [], _, _ => []
  | (k, v) :: rest, rid, f =>
    if k = rid then (k, f) :: regSet rest rid f else (k, v) :: regSet rest rid f

/-- Removal `pending_function_responses.pop(request_id, None)`. -/
def regRemove : CallRegistry → String → CallRegistry
  | [], _ => []
  | (k, v) :: rest, rid =>
    if k = rid then regRemove rest rid else (k, v) :: regRemove rest rid

/-- Assignment of a fresh future into the registry, the statement
`pending_function_responses[request_id] = future`. -/
def regInsert (reg : CallRegistry) (rid : String) (f : FutState) : CallRegistry :=
  if (regLookup reg rid).isSome then regSet reg rid f else reg ++ [(rid, f)]

/-- The `function_response` handler of `handle_client`: resolve the future
only when the id is truthy, registered, and the future is not yet done. -/
def handleFunctionResponse (reg : CallRegistry) (request_id : Option String) (result : JVal) :
    CallRegistry :=
  match request_id with
  | none => reg
  | some rid =>
    if rid = "" then reg
    else
      match regLookup reg rid with
      | some .pending => regSet reg rid (.done result)
      | some (.done _) => reg
      | none => reg

/-- The configured per-call timeout of `_execute_function_on_client`
(`asyncio.wait_for(future, timeout=30.0)`). -/
def brokerTimeout : Nat := 30

def noClientsResult : JVal :=
  .obj [("success", .bool false), ("error", .str "No hay clientes conectados")]

def timeoutResult (fname : String) : JVal :=
  .obj [("success", .bool false),
        ("error", .str ("Timeout esperando respuesta de " ++ fname))]

/-- What the single wait of one `invoke` observes: a reply arriving after
`elapsed` time units, or no reply at all. -/
inductive WaitOutcome where
  | replied (r : JVal) (elapsed : Nat)
  | timedOut

/-- Method `LLMClient._execute_function_on_client`: result, registry afterwards,
and the time spent waiting. With no connected client it fails immediately;
otherwise the call is registered, the reply/timeout race is decided by the
deadline, and the `finally` always pops the entry. -/
def executeFunctionOnClient (hasClients : Bool) (reg : CallRegistry) (rid fname : String)
    (w : WaitOutcome) : JVal × CallRegistry × Nat :=
  if hasClients then
    let reg1 := regInsert reg rid .pending
    match w with
    | .replied r t =>
      if t < brokerTimeout then (r, regRemove reg1 rid, t)
      else (timeoutResult fname, regRemove reg1 rid, brokerTimeout)
    | .timedOut => (timeoutResult fname, regRemove reg1 rid, brokerTimeout)
  else
    (noClientsResult, reg, 0)

/-! ## Dialogue continuity (`conversation_active`, `last_activity_time`) -/

structure ConvState where
  active : Bool
  lastActivity : Option Nat
deriving DecidableEq, Repr

/-- Truthiness of the route / command payload (`if intent == "navigation"
and route:`). -/
def truthyRoute : Option String → Bool
  | none => false
  | some r => !r.isEmpty

/-- Predicate `is_assistant_asking_question` (identical in both variants). -/
def questionPatterns : List String :=
  ["¿", "?", "dónde", "donde",
   "cuántos", "cuantos", "cuántas", "cuantas",
   "cuál", "cual", "cuáles", "cuales",
   "qué tipo", "que tipo", "qué ubicación", "que ubicación"]

def isAssistantAskingQuestion (text : String) : Bool :=
  if text.isEmpty then false
  else questionPatterns.any (fun p => isInfixL p.data (pyStrip (text.data.map spanishLower)))

/-- Continuity effect of `VoiceServer.process_command` (WebSocket server):
the LLM reply and error type enter as oracle inputs, `now` is the clock
read by `activate_conversation_mode`. -/
def processCommandWS (now : Nat) (text resp : String) (errType : Option String)
    (st : ConvState) : ConvState :=
  if (classifyIntentWS text).1 = "navigation" && truthyRoute (classifyIntentWS text).2 then
    if st.active then ⟨false, none⟩ else st
  else if errType.isSome then
    if st.active then ⟨false, none⟩ else st
  else if isAssistantAskingQuestion resp then ⟨true, some now⟩
  else if st.active then ⟨false, none⟩ else st

/-- Continuity effect of the `/api/command` endpoint
(`voice_api_server.process_command`): navigation and cooking commands
return without touching conversation state, an error reply returns without
touching it, and only an assistant question activates it. -/
def processCommandAPIConv (now : Nat) (text resp : String) (errType : Option String)
    (st : ConvState) : ConvState :=
  if (classifyIntentAPI text).1 = "navigation" && truthyRoute (classifyIntentAPI text).2 then st
  else if (classifyIntentAPI text).1 = "cooking_command" && truthyRoute (classifyIntentAPI text).2 then st
  else if errType.isSome then st
  else if isAssistantAskingQuestion resp then ⟨true, some now⟩
  else st

/-! ## A reading of the specification used for comparison -/

/-- Modelled from the spec wording "the extracted quantity being the first
spelled-out number word one..ten if any": the number word whose occurrence
starts EARLIEST in the utterance (the implementation instead checks the
words in fixed table order and takes the first table entry occurring
anywhere). -/
def claimFirstNumberWordAux : List Char → Option Nat
  | [] => none
  | c :: cs =>
    match firstSome (fun p => if isPrefixL p.1.data (c :: cs) then some p.2 else none) numberWords with
    | some n => some n
    | none => claimFirstNumberWordAux cs

def claimFirstNumberWord (text : String) : Option Nat :=
  claimFirstNumberWordAux (text.data.map spanishLower)

/-! ## Concrete instances used by individual claims -/

def c1CexState : LLMState :=
  { history := [],
    ctx := { initialKitchenContext with
             pending_ingredient := some ⟨"ing-1", "manzana"⟩
             pending_location := some "Alacena"
             pending_quantity := 2 } }

def c1CexAction : ActionData := ⟨"getInventory", none⟩

def c1CexOracle : BrokerOracle :=
  { searchResult := ⟨true, [], none⟩, addResult := ⟨false, some "db error"⟩,
    genericResult := ⟨true, none⟩, finalText := some "ok" }

def c1WitState : LLMState :=
  { history := [],
    ctx := { initialKitchenContext with
             pending_ingredient := some ⟨"i1", "pan"⟩
             pending_location := some "Alacena" } }

def c1WitOracle : BrokerOracle :=
  { searchResult := ⟨true, [], none⟩, addResult := ⟨true, none⟩,
    genericResult := ⟨true, none⟩, finalText := some "ok" }

def c4CexState : LLMState :=
  { history := [],
    ctx := { initialKitchenContext with
             pending_ingredient := some ⟨"ing-a", "manzana"⟩
             pending_location := some "Alacena" } }

def c4CexAction : ActionData := ⟨"searchIngredients", some "tomate"⟩

def c4CexOracle : BrokerOracle :=
  { searchResult := ⟨true, [⟨"ing-t", "tomate"⟩], none⟩,
    addResult := ⟨false, some "db down"⟩,
    genericResult := ⟨true, none⟩, finalText := some "ok" }

def c4WitState : LLMState :=
  { history := [],
    ctx := { initialKitchenContext with
             pending_ingredient := some ⟨"i9", "queso"⟩
             pending_location := some "Congelador"
             pending_quantity := 4 } }

def c4WitAction : ActionData := ⟨"getInventory", none⟩

def c4WitOracle : BrokerOracle :=
  { searchResult := ⟨true, [], none⟩, addResult := ⟨false, some "offline"⟩,
    genericResult := ⟨true, none⟩, finalText := some "ok" }

def c10Entries : List CtxEntry :=
  [.pendingIngredient (some ⟨"ing-7", "tomate"⟩), .pendingLocation (some "Congelador")]

def c10Updated : KitchenContext := updateContext initialKitchenContext c10Entries

def c10Action : ActionData := ⟨"getInventory", none⟩

def c10Oracle : BrokerOracle :=
  { searchResult := ⟨true, [], none⟩, addResult := ⟨true, none⟩,
    genericResult := ⟨true, none⟩, finalText := some "ok" }

/-! ## Helper lemmas -/

theorem firstSome_eq_some {α β : Type} {f : α → Option β} {l : List α} {b : β}
    (h : firstSome f l = some b) : ∃ a, a ∈ l ∧ f a = some b := by
  induction l with
  | nil => simp [firstSome] at h
  | cons x xs ih =>
    cases hx : f x with
    | some y =>
      refine ⟨x, List.mem_cons_self x xs, ?_⟩
      simp only [firstSome, hx] at h
      rw [hx, h]
    | none =>
      simp only [firstSome, hx] at h
      obtain ⟨a, ha, hfa⟩ := ih h
      exact ⟨a, List.mem_cons_of_mem x ha, hfa⟩

theorem firstSome_eq_none {α β : Type} {f : α → Option β} {l : List α}
    (h : ∀ a ∈ l, f a = none) : firstSome f l = none := by
  induction l with
  | nil => rfl
  | cons x xs ih =>
    have hx := h x (List.mem_cons_self x xs)
    simp only [firstSome, hx]
    exact ih (fun a ha => h a (List.mem_cons_of_mem x ha))

theorem decodeCandidate_some {cs : List Char} {v : JVal}
    (h : decodeCandidate cs = some v) : hasActionParams v = true := by
  unfold decodeCandidate at h
  split at h
  · split at h
    · cases h
      assumption
    · cases h
  · cases h

theorem directDecode_some {cs : List Char} {v : JVal}
    (h : directDecode cs = some v) : hasActionParams v = true := by
  unfold directDecode at h
  by_cases hc : (startsWithBrace cs && endsWithBrace cs) = true
  · rw [if_pos hc] at h
    exact decodeCandidate_some h
  · rw [if_neg hc] at h
    cases h

theorem regLookup_regSet_self {reg : CallRegistry} {rid : String} {v : FutState} (f : FutState)
    (h : regLookup reg rid = some v) : regLookup (regSet reg rid f) rid = some f := by
  induction reg with
  | nil => cases h
  | cons p rest ih =>
    obtain ⟨k, w⟩ := p
    by_cases hk : k = rid
    · simp [regSet, regLookup, hk]
    · simp only [regLookup, if_neg hk] at h
      simp only [regSet, if_neg hk, regLookup, if_neg hk]
      exact ih h

theorem regLookup_regRemove (reg : CallRegistry) (rid : String) :
    regLookup (regRemove reg rid) rid = none := by
  induction reg with
  | nil => rfl
  | cons p rest ih =>
    obtain ⟨k, w⟩ := p
    by_cases hk : k = rid
    · simpa [regRemove, hk] using ih
    · simp [regRemove, regLookup, hk, ih]

theorem extractLocation_canonical {text : String} {l : String}
    (h : extractLocation text = some l) :
    l = "Refrigerador" ∨ l = "Congelador" ∨ l = "Alacena" := by
  obtain ⟨p, hmem, hp⟩ := firstSome_eq_some h
  by_cases hc : isInfixL p.1.data (text.data.map spanishLower) = true
  · rw [if_pos hc] at hp
    cases hp
    fin_cases hmem <;> simp
  · rw [if_neg hc] at hp
    cases hp

/-! ## Claim theorems -/

/-- C2: a pending broker call is resolved at most once. After a matching
`function_response` the future holds the first reply; a second reply for
the same `request_id` is a no-op; a reply for an unregistered (unknown or
already removed) `request_id` changes nothing; a reply arriving after the
timeout path removed the entry changes nothing; and every completed
`invoke` (reply or timeout) leaves no entry for its `request_id` in the
registry. -/
theorem pending_call_resolved_at_most_once (reg : CallRegistry) (rid : String) (r1 r2 : JVal)
    (hne : rid ≠ "") (hpending : regLookup reg rid = some .pending) :
    regLookup (handleFunctionResponse reg (some rid) r1) rid = some (.done r1) ∧
    handleFunctionResponse (handleFunctionResponse reg (some rid) r1) (some rid) r2
      = handleFunctionResponse reg (some rid) r1 ∧
    (∀ (reg2 : CallRegistry) (rid2 : String) (r : JVal),
        regLookup reg2 rid2 = none → handleFunctionResponse reg2 (some rid2) r = reg2) ∧
    (∀ (reg2 : CallRegistry) (rid2 : String) (r : JVal),
        handleFunctionResponse (regRemove reg2 rid2) (some rid2) r = regRemove reg2 rid2) ∧
    (∀ (hasC : Bool) (reg2 : CallRegistry) (rid2 fname : String) (w : WaitOutcome),
        regLookup (executeFunctionOnClient hasC reg2 rid2 fname w).2.1 rid2
          = if hasC then none else regLookup reg2 rid2) := by
  have hres : handleFunctionResponse reg (some rid) r1 = regSet reg rid (.done r1) := by
    simp only [handleFunctionResponse, if_neg hne, hpending]
  have hlook : regLookup (handleFunctionResponse reg (some rid) r1) rid = some (.done r1) := by
    rw [hres]
    exact regLookup_regSet_self _ hpending
  have hlook2 : regLookup (regSet reg rid (.done r1)) rid = some (.done r1) := by
    rw [← hres]
    exact hlook
  refine ⟨hlook, ?_, ?_, ?_, ?_⟩
  · rw [hres]
    simp only [handleFunctionResponse, if_neg hne, hlook2]
  · intro reg2 rid2 r hnone
    by_cases h2 : rid2 = ""
    · simp [handleFunctionResponse, h2]
    · simp [handleFunctionResponse, h2, hnone]
  · intro reg2 rid2 r
    by_cases h2 : rid2 = ""
    · simp [handleFunctionResponse, h2]
    · simp [handleFunctionResponse, h2, regLookup_regRemove]
  · intro hasC reg2 rid2 fname w
    cases hasC with
    | false => simp [executeFunctionOnClient]
    | true =>
      cases w with
      | replied r t =>
        by_cases ht : t < brokerTimeout
        · simp [executeFunctionOnClient, ht, regLookup_regRemove]
        · simp [executeFunctionOnClient, ht, regLookup_regRemove]
      | timedOut => simp [executeFunctionOnClient, regLookup_regRemove]

theorem pending_call_resolved_at_most_once_witness :
    regLookup (handleFunctionResponse [("id-1", FutState.pending)] (some "id-1") JVal.null) "id-1"
      = some (FutState.done JVal.null) ∧
    handleFunctionResponse
        (handleFunctionResponse [("id-1", FutState.pending)] (some "id-1") JVal.null)
        (some "id-1") (JVal.bool true)
      = handleFunctionResponse [("id-1", FutState.pending)] (some "id-1") JVal.null :=
  ⟨(pending_call_resolved_at_most_once [("id-1", .pending)] "id-1" .null (.bool true)
      (by decide) rfl).1,
   (pending_call_resolved_at_most_once [("id-1", .pending)] "id-1" .null (.bool true)
      (by decide) rfl).2.1⟩

/-- C6: invoking the broker with no attached executor fails immediately
with the no-executor error, without registering a pending call (the
registry is returned unchanged) and without waiting (elapsed time 0, not
any part of the 30-unit timeout). -/
theorem invoke_no_executor_fails_fast (reg : CallRegistry) (rid fname : String) (w : WaitOutcome) :
    executeFunctionOnClient false reg rid fname w = (noClientsResult, reg, 0) ∧
    noClientsResult
      = .obj [("success", .bool false), ("error", .str "No hay clientes conectados")] ∧
    brokerTimeout = 30 :=
  ⟨rfl, rfl, rfl⟩

/-- C3, counterexample: the utterance "que siguiente" contains the
question indicator "que" and no navigation verb, yet the API-variant
classifier returns a cooking command, because its cooking-command loop
runs before the question check — so the claim statement "regardless of any other
content, such as cooking-command patterns" fails on the code. -/
theorem question_indicator_preempted_by_cooking_cex :
    isQuestionAPIB (normText "que siguiente") = true ∧
    hasNavVerbB (normText "que siguiente") = false ∧
    classifyIntentAPI "que siguiente" = ("cooking_command", some "siguiente") := by
  decide

/-- C3, amended: an utterance with a question indicator and no navigation
verb classifies as Question regardless of section-name substrings —
unconditionally in the WebSocket-variant classifier, and in the API
variant provided no cooking-command pattern occurs in the utterance (a
cooking-command pattern may preempt the question check there). -/
theorem question_indicator_no_navverb_classifies_question (text : String)
    (hn : hasNavVerbB (normText text) = false) :
    (isQuestionWSB (normText text) = true → classifyIntentWS text = ("question", none)) ∧
    (isQuestionAPIB (normText text) = true → firstCookingKind (normText text) = none →
       classifyIntentAPI text = ("question", none)) := by
  constructor
  · intro hq
    simp [classifyIntentWS, classifyWSCore, navOrQuestion, hq, hn]
  · intro hq hc
    simp [classifyIntentAPI, classifyAPICore, hc, navOrQuestion, hq, hn]

theorem question_indicator_no_navverb_classifies_question_witness :
    classifyIntentWS "qué tengo" = ("question", none) ∧
    classifyIntentAPI "qué tengo" = ("question", none) :=
  ⟨(question_indicator_no_navverb_classifies_question "qué tengo" (by decide)).1 (by decide),
   (question_indicator_no_navverb_classifies_question "qué tengo" (by decide)).2
     (by decide) (by decide)⟩

/-- C7, counterexample: "siguiente" is a one-word utterance containing the
cooking-command pattern "siguiente" and no question indicator, yet the
WebSocket-variant classifier (which has no cooking-command table at all)
returns Question for it — the claim text "never Question" fails on that cited
classifier. -/
theorem ws_classifier_lacks_cooking_commands_cex :
    wordCountL (normText "siguiente") ≤ 3 ∧
    firstCookingKind (normText "siguiente") = some "siguiente" ∧
    isQuestionWSB (normText "siguiente") = false ∧
    isQuestionAPIB (normText "siguiente") = false ∧
    classifyIntentWS "siguiente" = ("question", none) := by
  decide

/-- C7, amended: in the API-variant classifier (the only one with a
cooking-command table), every utterance of at most 3 words containing a
cooking-command pattern classifies as CookingCommand with the first
matching kind in table order, which is a kind one of whose patterns occurs
in the utterance; the WebSocket-variant classifier has no cooking-command
category and can return Question for the same utterance. -/
theorem api_short_cooking_utterance_classifies_cooking (text : String) (k : String)
    (h1 : wordCountL (normText text) ≤ 3)
    (h2 : firstCookingKind (normText text) = some k)
    (_h3 : isQuestionAPIB (normText text) = false) :
    classifyIntentAPI text = ("cooking_command", some k) ∧
    ∃ pats, (k, pats) ∈ cookingCommands ∧
      pats.any (fun pat => isInfixL pat.data (normText text)) = true := by
  constructor
  · simp [classifyIntentAPI, classifyAPICore, h2, h1]
  · obtain ⟨p, hmem, hp⟩ := firstSome_eq_some h2
    by_cases hc : p.2.any (fun pat => isInfixL pat.data (normText text)) = true
    · rw [if_pos hc] at hp
      cases hp
      exact ⟨p.2, hmem, hc⟩
    · rw [if_neg hc] at hp
      cases hp

theorem api_short_cooking_utterance_classifies_cooking_witness :
    classifyIntentAPI "pausa" = ("cooking_command", some "pausar") :=
  (api_short_cooking_utterance_classifies_cooking "pausa" "pausar"
    (by decide) (by decide) (by decide)).1

/-- C8, counterexample: with continuity active, dispatching a navigation
outcome through the HTTP endpoint (`voice_api_server.process_command`)
leaves conversation state completely untouched — the claim text "deactivates
continuity" fails on that cited implementation. -/
theorem api_navigation_keeps_continuity_cex :
    classifyIntentAPI "ve a recetas" = ("navigation", some "/recipes") ∧
    processCommandAPIConv 100 "ve a recetas" "x" none ⟨true, some 5⟩ = ⟨true, some 5⟩ ∧
    (processCommandAPIConv 100 "ve a recetas" "x" none ⟨true, some 5⟩).active = true := by
  decide

/-- C8, amended: in the WebSocket-server method `process_command`, dispatching a
navigation outcome while continuity is active deactivates it — both fields
cleared — regardless of how recent the last activity was; the HTTP
endpoint navigation branch, by contrast, returns with conversation state
unchanged. -/
theorem ws_navigation_deactivates_continuity (now : Nat) (text resp : String)
    (errType : Option String) (st : ConvState)
    (hact : st.active = true)
    (hnav : (classifyIntentWS text).1 = "navigation")
    (hroute : truthyRoute (classifyIntentWS text).2 = true) :
    processCommandWS now text resp errType st = ⟨false, none⟩ ∧
    ((classifyIntentAPI text).1 = "navigation" →
      truthyRoute (classifyIntentAPI text).2 = true →
      processCommandAPIConv now text resp errType st = st) := by
  constructor
  · simp [processCommandWS, hnav, hroute, hact]
  · intro h1 h2
    simp [processCommandAPIConv, h1, h2]

theorem ws_navigation_deactivates_continuity_witness :
    processCommandWS 9 "ve a recetas" "x" none ⟨true, some 3⟩ = ⟨false, none⟩ ∧
    processCommandAPIConv 9 "ve a recetas" "x" none ⟨true, some 3⟩ = ⟨true, some 3⟩ :=
  ⟨(ws_navigation_deactivates_continuity 9 "ve a recetas" "x" none ⟨true, some 3⟩
      rfl (by decide) (by decide)).1,
   (ws_navigation_deactivates_continuity 9 "ve a recetas" "x" none ⟨true, some 3⟩
      rfl (by decide) (by decide)).2 (by decide) (by decide)⟩

/-- C5: the action-response parser returns the decoded object directly when
the trimmed text is one brace-delimited JSON object with both an "action"
and a "params" field; otherwise it scans the balanced-brace candidates in
order of appearance and returns the first that decodes with both fields,
individual decode failures being non-fatal; it returns none when no
candidate decodes; every returned object carries both fields; and the
three specification vectors (pure directive, directive embedded in prose,
plain prose) behave as stated. -/
theorem parse_json_response_spec :
    (∀ (text : String) (v : JVal),
        startsWithBrace (pyStrip text.data) = true →
        endsWithBrace (pyStrip text.data) = true →
        jsonLoadsL (pyStrip text.data) = some v →
        hasActionParams v = true →
        parseJsonResponse text = some v) ∧
    (∀ (text : String) (v : JVal), parseJsonResponse text = some v → hasActionParams v = true) ∧
    (∀ text : String,
        directDecode (pyStrip text.data) = none →
        parseJsonResponse text = firstSome decodeCandidate (scanMatches (pyStrip text.data))) ∧
    (∀ text : String,
        directDecode (pyStrip text.data) = none →
        (∀ m ∈ scanMatches (pyStrip text.data), decodeCandidate m = none) →
        parseJsonResponse text = none) ∧
    parseJsonResponse "\x7b\"action\":\"searchIngredients\",\"params\":\x7b\"query\":\"tomato\"\x7d\x7d"
      = some (.obj [("action", .str "searchIngredients"),
                    ("params", .obj [("query", .str "tomato")])]) ∧
    parseJsonResponse "Sure, here you go: \x7b\"action\":\"getInventory\",\"params\":\x7d\x7d enjoy!"
      = none ∧
    parseJsonResponse "Sure, here you go: \x7b\"action\":\"getInventory\",\"params\":\x7b\x7d\x7d enjoy!"
      = some (.obj [("action", .str "getInventory"), ("params", .obj [])]) ∧
    parseJsonResponse "No tengo información sobre eso." = none ∧
    parseJsonResponse "a \x7bmal\x7d b \x7b\"action\":1,\"params\":2\x7d c"
      = some (.obj [("action", .num "1"), ("params", .num "2")]) := by
  refine ⟨?_, ?_, ?_, ?_, rfl, rfl, rfl, rfl, rfl⟩
  · intro text v h1 h2 h3 h4
    simp only [parseJsonResponse, directDecode, decodeCandidate, h1, h2, h3, h4,
      Bool.and_self, if_true]
  · intro text v h
    simp only [parseJsonResponse] at h
    cases hd : directDecode (pyStrip text.data) with
    | some w =>
      rw [hd] at h
      cases h
      exact directDecode_some hd
    | none =>
      rw [hd] at h
      obtain ⟨m, _, hm⟩ := firstSome_eq_some h
      exact decodeCandidate_some hm
  · intro text hd
    simp only [parseJsonResponse, hd]
  · intro text hd hall
    simp only [parseJsonResponse, hd]
    exact firstSome_eq_none hall

theorem parse_json_response_spec_witness :
    parseJsonResponse "  \x7b\"action\": null, \"params\": 1\x7d  "
      = some (.obj [("action", .null), ("params", .num "1")]) ∧
    parseJsonResponse "hola" = none :=
  ⟨parse_json_response_spec.1 _ _ rfl rfl rfl rfl,
   parse_json_response_spec.2.2.2.1 "hola" rfl
     (fun m hm => by
       rw [show scanMatches (pyStrip ("hola").data) = ([] : List (List Char)) from rfl] at hm
       cases hm)⟩

/-- C1, counterexample: with a pending ingredient and location stored, a
directive for any other action issues the composite `addToInventory`; when
that call reports failure, `_handle_action` returns the error WITHOUT
clearing `pending_ingredient` or `pending_location` — so the claim text
"cleared ... immediately after a composite action executes (success or
failure)" fails on the failure path. -/
theorem composite_add_failure_leaves_slots_set_cex :
    issuesCompositeAdd c1CexState c1CexAction c1CexOracle = true ∧
    c1CexOracle.addResult.success = false ∧
    (postActionCtx c1CexState c1CexAction c1CexOracle).pending_ingredient
      = some ⟨"ing-1", "manzana"⟩ ∧
    (postActionCtx c1CexState c1CexAction c1CexOracle).pending_location = some "Alacena" ∧
    (handleAction c1CexState c1CexAction c1CexOracle).2.2 = some "function_error" := by
  decide

/-- C1, amended: whenever one of the two dedicated composite paths of
`_handle_action` issues the `addToInventory` call, the four pending slots
are cleared together (`pending_ingredient` and `pending_location` to none,
quantity and unit back to defaults) exactly when the call reports success;
on failure both item and location remain set. -/
theorem composite_add_clears_slots_iff_success (st : LLMState) (a : ActionData)
    (orc : BrokerOracle) (hexec : issuesCompositeAdd st a orc = true) :
    (orc.addResult.success = true →
       (postActionCtx st a orc).pending_ingredient = none ∧
       (postActionCtx st a orc).pending_location = none ∧
       (postActionCtx st a orc).pending_quantity = 1 ∧
       (postActionCtx st a orc).pending_unit = "piezas") ∧
    (orc.addResult.success = false →
       (postActionCtx st a orc).pending_ingredient.isSome = true ∧
       truthyOptStr (postActionCtx st a orc).pending_location = true) := by
  unfold issuesCompositeAdd at hexec
  by_cases ha : a.action = "searchIngredients"
  · rw [if_pos ha] at hexec
    simp only [Bool.and_eq_true] at hexec
    obtain ⟨⟨hs, hd⟩, hl⟩ := hexec
    cases hdata : orc.searchResult.data with
    | nil => rw [hdata] at hd; simp at hd
    | cons first rest =>
      cases hloc : st.ctx.pending_location with
      | none => rw [hloc] at hl; simp [truthyOptStr] at hl
      | some loc =>
        rw [hloc] at hl
        simp only [truthyOptStr, Bool.not_eq_true'] at hl
        constructor
        · intro hsucc
          simp [postActionCtx, handleAction, ha, handleSearch, hdata, hs, hloc, hl, hsucc,
            finishAdd]
        · intro hfail
          simp [postActionCtx, handleAction, ha, handleSearch, hdata, hs, hloc, hl, hfail,
            truthyOptStr]
  · rw [if_neg ha] at hexec
    simp only [Bool.and_eq_true] at hexec
    obtain ⟨hi, hl⟩ := hexec
    cases hing : st.ctx.pending_ingredient with
    | none => rw [hing] at hi; simp at hi
    | some ing =>
      cases hloc : st.ctx.pending_location with
      | none => rw [hloc] at hl; simp [truthyOptStr] at hl
      | some loc =>
        rw [hloc] at hl
        simp only [truthyOptStr, Bool.not_eq_true'] at hl
        constructor
        · intro hsucc
          simp [postActionCtx, handleAction, ha, hing, hloc, hl, handlePendingAdd, hsucc,
            finishAdd]
        · intro hfail
          simp [postActionCtx, handleAction, ha, hing, hloc, hl, handlePendingAdd, hfail,
            truthyOptStr]

theorem composite_add_clears_slots_iff_success_witness :
    (postActionCtx c1WitState c1CexAction c1WitOracle).pending_ingredient = none ∧
    (postActionCtx c1WitState c1CexAction c1WitOracle).pending_location = none ∧
    (postActionCtx c1WitState c1CexAction c1WitOracle).pending_quantity = 1 ∧
    (postActionCtx c1WitState c1CexAction c1WitOracle).pending_unit = "piezas" :=
  (composite_add_clears_slots_iff_success c1WitState c1CexAction c1WitOracle
    (by decide)).1 rfl

/-- C4, counterexample: a session with pending slots set receives a
`searchIngredients` directive; the lookup succeeds and re-seeds
`pending_ingredient` with the first hit BEFORE the composite
`addToInventory` is issued; when the composite call then fails, the turn
has nonetheless changed `pending_ingredient` — so the claim text "pending
slot state is left unchanged by the failing turn" fails for that path. -/
theorem failing_turn_reseeds_pending_ingredient_cex :
    issuesCompositeAdd c4CexState c4CexAction c4CexOracle = true ∧
    c4CexOracle.addResult.success = false ∧
    c4CexState.ctx.pending_ingredient = some ⟨"ing-a", "manzana"⟩ ∧
    (postActionCtx c4CexState c4CexAction c4CexOracle).pending_ingredient
      = some ⟨"ing-t", "tomate"⟩ ∧
    (handleAction c4CexState c4CexAction c4CexOracle).2.2 = some "function_error" := by
  decide

/-- C4, amended: when the composite `addToInventory` call fails, the
failure handling itself performs no slot mutation: location, quantity and
unit always keep their turn-entry values, the whole context is unchanged
on the pending-slots path (any directive other than the lookup), and on
the `searchIngredients` path the only difference is that
`pending_ingredient` was already re-seeded with the first lookup hit
before the composite call was issued; the turn reports a
`function_error`. -/
theorem composite_add_failure_preserves_slots (st : LLMState) (a : ActionData)
    (orc : BrokerOracle) (hexec : issuesCompositeAdd st a orc = true)
    (hfail : orc.addResult.success = false) :
    (postActionCtx st a orc).pending_location = st.ctx.pending_location ∧
    (postActionCtx st a orc).pending_quantity = st.ctx.pending_quantity ∧
    (postActionCtx st a orc).pending_unit = st.ctx.pending_unit ∧
    (a.action ≠ "searchIngredients" → postActionCtx st a orc = st.ctx) ∧
    (a.action = "searchIngredients" →
       ∃ first rest, orc.searchResult.data = first :: rest ∧
         (postActionCtx st a orc).pending_ingredient = some first) ∧
    (handleAction st a orc).2.2 = some "function_error" := by
  unfold issuesCompositeAdd at hexec
  by_cases ha : a.action = "searchIngredients"
  · rw [if_pos ha] at hexec
    simp only [Bool.and_eq_true] at hexec
    obtain ⟨⟨hs, hd⟩, hl⟩ := hexec
    cases hdata : orc.searchResult.data with
    | nil => rw [hdata] at hd; simp at hd
    | cons first rest =>
      cases hloc : st.ctx.pending_location with
      | none => rw [hloc] at hl; simp [truthyOptStr] at hl
      | some loc =>
        rw [hloc] at hl
        simp only [truthyOptStr, Bool.not_eq_true'] at hl
        refine ⟨?_, ?_, ?_, fun h => absurd ha h, fun _ => ⟨first, rest, rfl, ?_⟩, ?_⟩ <;>
          simp [postActionCtx, handleAction, ha, handleSearch, hdata, hs, hloc, hl, hfail]
  · rw [if_neg ha] at hexec
    simp only [Bool.and_eq_true] at hexec
    obtain ⟨hi, hl⟩ := hexec
    cases hing : st.ctx.pending_ingredient with
    | none => rw [hing] at hi; simp at hi
    | some ing =>
      cases hloc : st.ctx.pending_location with
      | none => rw [hloc] at hl; simp [truthyOptStr] at hl
      | some loc =>
        rw [hloc] at hl
        simp only [truthyOptStr, Bool.not_eq_true'] at hl
        refine ⟨?_, ?_, ?_, fun _ => ?_, fun h => absurd h ha, ?_⟩ <;>
          simp [postActionCtx, handleAction, ha, hing, hloc, hl, handlePendingAdd, hfail]

theorem composite_add_failure_preserves_slots_witness :
    (postActionCtx c4WitState c4WitAction c4WitOracle).pending_location = some "Congelador" ∧
    (postActionCtx c4WitState c4WitAction c4WitOracle).pending_quantity = 4 ∧
    postActionCtx c4WitState c4WitAction c4WitOracle = c4WitState.ctx := by
  have h := composite_add_failure_preserves_slots c4WitState c4WitAction c4WitOracle
    (by decide) rfl
  exact ⟨h.1.trans (by decide), h.2.1.trans (by decide), h.2.2.2.1 (by decide)⟩

/-- C9, counterexample: in "dos naranjas y una manzana" the first
spelled-out number word in text order is "dos" (2), but `_extract_quantity`
checks its table in fixed insertion order and finds "un" (a substring of
"una") first, returning 1 — and since 1 is not greater than the default,
`pending_quantity` is not overwritten where the claim requires it to
become 2. -/
theorem extract_quantity_table_order_cex :
    claimFirstNumberWord "dos naranjas y una manzana" = some 2 ∧
    extractQuantity "dos naranjas y una manzana" = 1 ∧
    (getResponseSlotPhase initialKitchenContext "dos naranjas y una manzana").pending_quantity
      = 1 := by
  decide

/-- C9, amended: on every question-path utterance, a detected location
synonym unconditionally overwrites `pending_location` with its canonical
name (one of the three storage locations), and `pending_quantity` is
overwritten with the extracted quantity exactly when that quantity exceeds
1 — where the extracted quantity is the value of the first `number_words`
TABLE entry (checked in fixed table order, not text order) occurring as a
substring, else the first digit run, else 1; the other slots are
untouched by this phase. -/
theorem slot_phase_overwrite_rules (ctx : KitchenContext) (text : String) :
    (∀ l, extractLocation text = some l →
       (getResponseSlotPhase ctx text).pending_location = some l ∧
       (l = "Refrigerador" ∨ l = "Congelador" ∨ l = "Alacena")) ∧
    (extractLocation text = none →
       (getResponseSlotPhase ctx text).pending_location = ctx.pending_location) ∧
    (1 < extractQuantity text →
       (getResponseSlotPhase ctx text).pending_quantity = extractQuantity text) ∧
    (extractQuantity text ≤ 1 →
       (getResponseSlotPhase ctx text).pending_quantity = ctx.pending_quantity) ∧
    (getResponseSlotPhase ctx text).pending_ingredient = ctx.pending_ingredient ∧
    (getResponseSlotPhase ctx text).pending_unit = ctx.pending_unit := by
  refine ⟨?_, ?_, ?_, ?_, ?_, ?_⟩
  · intro l hl
    refine ⟨?_, extractLocation_canonical hl⟩
    simp only [getResponseSlotPhase, applyQuantity, hl, applyLocation]
    split <;> rfl
  · intro hl
    simp only [getResponseSlotPhase, applyQuantity, hl, applyLocation]
    split <;> rfl
  · intro hq
    simp only [getResponseSlotPhase, applyQuantity, if_pos hq]
  · intro hq
    have : ¬(1 < extractQuantity text) := by omega
    simp only [getResponseSlotPhase, applyQuantity, if_neg this]
    cases hl : extractLocation text <;> simp [applyLocation]
  · simp only [getResponseSlotPhase, applyQuantity]
    split
    · cases hl : extractLocation text <;> simp [applyLocation]
    · cases hl : extractLocation text <;> simp [applyLocation]
  · simp only [getResponseSlotPhase, applyQuantity]
    split
    · cases hl : extractLocation text <;> simp [applyLocation]
    · cases hl : extractLocation text <;> simp [applyLocation]

theorem slot_phase_overwrite_rules_witness :
    (getResponseSlotPhase initialKitchenContext "tres tomates en la nevera").pending_location
      = some "Refrigerador" ∧
    (getResponseSlotPhase initialKitchenContext "tres tomates en la nevera").pending_quantity
      = 3 :=
  ⟨((slot_phase_overwrite_rules initialKitchenContext "tres tomates en la nevera").1
      "Refrigerador" (by decide)).1,
   ((slot_phase_overwrite_rules initialKitchenContext "tres tomates en la nevera").2.2.1
      (by decide)).trans (by decide)⟩

/-- C10 (implicit): `update_context` shallow-merges every caller-supplied
entry into the very record that holds the pending slots of the reconciler — a
context update alone (no utterance processed) can set `pending_ingredient`
and `pending_location`, flipping the composite-action guard of
`_handle_action` from false to true; updates are not limited to UI-context
keys. -/
theorem update_context_reaches_pending_slots :
    (∀ (ctx : KitchenContext) (v : Option String),
        (applyCtxEntry ctx (CtxEntry.pendingLocation v)).pending_location = v) ∧
    (∀ (ctx : KitchenContext) (v : Option Ingredient),
        (applyCtxEntry ctx (CtxEntry.pendingIngredient v)).pending_ingredient = v) ∧
    (∀ (ctx : KitchenContext) (v : Nat),
        (applyCtxEntry ctx (CtxEntry.pendingQuantity v)).pending_quantity = v) ∧
    c10Updated.pending_ingredient = some ⟨"ing-7", "tomate"⟩ ∧
    c10Updated.pending_location = some "Congelador" ∧
    initialKitchenContext.pending_ingredient = none ∧
    initialKitchenContext.pending_location = none ∧
    issuesCompositeAdd ⟨[], c10Updated⟩ c10Action c10Oracle = true ∧
    issuesCompositeAdd ⟨[], initialKitchenContext⟩ c10Action c10Oracle = false :=
  ⟨fun _ _ => rfl, fun _ _ => rfl, fun _ _ => rfl,
   by decide, by decide, rfl, rfl, by decide, by decide⟩
